import Mathlib

/-!
Verification development for the CarbonShift incentive-tracking application
(`optibot`): the trip-submission flow, redemption flow, reward policy,
storage layer and HTTP routes are shallowly embedded from the TypeScript
source (`src/client/src/pages/home.tsx`, second revision with blockchain
minting; `src/server/storage.ts`; `src/server/routes.ts`).

Conventions of the embedding:
* JavaScript numbers are modelled as exact rationals (`ℚ`); the spec itself
  demands that distances be honored "at whatever precision the caller
  provides — no rounding before the floor step", and every scenario value in
  the spec is exactly representable.  `Math.floor` on a well-defined product
  is `Int.floor`; the `NaN` produced by `rates[mode] * distance` when `mode`
  is missing from the rate table is modelled by a dedicated constructor.
* Asynchronous external collaborators (the Ledger's `mint` and `balanceOf`)
  are oracles passed as arguments: `Option String` for the mint outcome
  (`some txHash` on confirmation, `none` when the transaction is rejected,
  cancelled or lost) and `Option ℤ` for the balance read (`none` = fetch
  error, in which case `fetchBalance` keeps the previous cached balance).
* The trip store append (`createTrip.mutate` → `POST /api/trips` →
  `storage.createTrip`) is the external persistence collaborator; its
  in-memory implementation (`MemStorage.createTrip`) always succeeds, and it
  is modelled as a reliable list append.
* React state updates that are re-read by the flow itself (`minting`,
  `redeeming`, `balance`) are modelled as fields of an explicit state record
  threaded through each call, exactly as the spec's §9 reframing suggests.
-/

namespace CarbonShift

/-- Result of JavaScript `Math.floor(rates[mode] * distance)`: either a
well-defined integer, or `NaN` when `mode` is absent from the rate table
(`rates[mode]` is `undefined`, and `undefined * distance` is `NaN`). -/
inductive FloorResult where
  | nan : FloorResult
  | val : ℤ → FloorResult
deriving DecidableEq, Repr

/-- The rate table of `calculateTokens` in `home.tsx`:
`{ 'Walking': 1, 'Cycling': 0.5, 'Public Transport': 0.2 }`.
Lookup of a key not in the record yields `undefined`, modelled `none`. -/
def rates (mode : String) : Option ℚ :=
  if mode = "Walking" then some 1
  else if mode = "Cycling" then some (1/2)
  else if mode = "Public Transport" then some (1/5)
  else none

/-- `calculateTokens` from `home.tsx`:
`return Math.floor(rates[mode] * distance)`.  For a known mode this is the
floor of the exact product; for an unknown mode the JavaScript expression
evaluates to `NaN` (no exception is thrown). -/
def calculateTokens (mode : String) (distance : ℚ) : FloorResult :=
  match rates mode with
  | some r => .val ⌊r * distance⌋
  | none => .nan

/-- The JavaScript truthiness test `tokensEarned > 0` used by `submitTrip`:
`NaN > 0` is `false`. -/
def FloorResult.isPos : FloorResult → Bool
  | .nan => false
  | .val n => decide (0 < n)

/-- A trip record as sent by `createTrip.mutate` and persisted by the
store: `{ walletAddress, mode, distance, tokensEarned }` (the server adds
`id` and `createdAt`, which play no role in the client-side invariants). -/
structure ClientTrip where
  walletAddress : String
  mode : String
  distance : ℚ
  tokensEarned : ℤ
deriving DecidableEq, Repr

/-- The client-side session state of `Home` that `submitTrip` reads and
writes: the connected `account`, the stored `provider` (present or not),
the cached `balance`, the `minting` in-flight flag, and the list of
persisted trips (the view of the trip store). -/
structure SubmitState where
  account : Option String
  provider : Bool
  balance : ℤ
  minting : Bool
  trips : List ClientTrip
deriving DecidableEq, Repr

/-- Outcome of one `submitTrip` call, read off the code's exit paths:
the early `return` under the `minting` guard, the two validation toasts,
the catch branch distinguishing a mint failure (`error.message` contains
`Token minting failed`) from the generic error thrown when there is no
provider or no tokens to mint, and the success toast carrying the
transaction hash. -/
inductive SubmitResult where
  | alreadyInProgress : SubmitResult
  | invalidDistance : SubmitResult
  | notConnected : SubmitResult
  | mintFailed : SubmitResult
  | submitError : SubmitResult
  | success : String → SubmitResult
deriving DecidableEq, Repr

/-- Outcome of the prefix of `submitTrip` that runs before `setMinting(true)`:
the re-entrancy guard, the distance validation and the account check.
`started acct d` records the local variables `account` and `distance`
captured by the code before it enters the try block. -/
inductive BeginResult where
  | alreadyInProgress : BeginResult
  | invalidDistance : BeginResult
  | notConnected : BeginResult
  | started : String → ℚ → BeginResult
deriving DecidableEq, Repr

/-- The prefix of `submitTrip` before the try block:
`if (minting) return;` then distance validation
(`!tripForm.distance || parseFloat(tripForm.distance) <= 0`) then the
account check, and finally `setMinting(true)`.  The distance field is the
already-parsed form value (`none` models the empty field). -/
def submitBegin (st : SubmitState) (distance? : Option ℚ) :
    SubmitState × BeginResult :=
  if st.minting then (st, .alreadyInProgress)
  else
    match distance? with
    | none => (st, .invalidDistance)
    | some d =>
      if d ≤ 0 then (st, .invalidDistance)
      else
        match st.account with
        | none => (st, .notConnected)
        | some acct => ({ st with minting := true }, .started acct d)

/-- The guard `if (provider && tokensEarned > 0)` of `submitTrip`: `some n`
when a mint of `n` tokens will be attempted, `none` when control falls to
the `else` branch that throws `'No provider available or no tokens to
mint'`. -/
def mintGate (provider : Bool) (tokens : FloorResult) : Option ℤ :=
  match tokens with
  | .val n => if provider && decide (0 < n) then some n else none
  | .nan => none

/-- The try/catch/finally body of `submitTrip` (second revision): if the
gate passes, await `mintTokens` (oracle `mintOutcome`; `none` = the
transaction was rejected, cancelled or lost and `mintTokens` threw); on
mint success, `fetchBalance` re-reads the Ledger (oracle `ledgerRead`;
`none` = the read failed and the previous cached balance is kept), then
`createTrip.mutate` persists the trip.  The `finally` clears `minting`
on every path. -/
def submitFinish (st : SubmitState) (acct : String) (mode : String)
    (d : ℚ) (mintOutcome : Option String) (ledgerRead : Option ℤ) :
    SubmitState × SubmitResult :=
  match mintGate st.provider (calculateTokens mode d) with
  | some n =>
    match mintOutcome with
    | some txHash =>
      ({ st with
          balance := ledgerRead.getD st.balance,
          trips := st.trips ++ [⟨acct, mode, d, n⟩],
          minting := false }, .success txHash)
    | none => ({ st with minting := false }, .mintFailed)
  | none => ({ st with minting := false }, .submitError)

/-- `submitTrip` from `home.tsx` (second revision, with blockchain
minting): the guard-and-validation prefix followed, when it reaches the
try block, by the mint/persist body. -/
def submitTrip (st : SubmitState) (mode : String) (distance? : Option ℚ)
    (mintOutcome : Option String) (ledgerRead : Option ℤ) :
    SubmitState × SubmitResult :=
  match submitBegin st distance? with
  | (st', .started acct d) => submitFinish st' acct mode d mintOutcome ledgerRead
  | (st', .alreadyInProgress) => (st', .alreadyInProgress)
  | (st', .invalidDistance) => (st', .invalidDistance)
  | (st', .notConnected) => (st', .notConnected)

/-- A reward catalog entry, from the hard-coded `REWARDS` array in
`home.tsx`. -/
structure Reward where
  id : ℕ
  title : String
  description : String
  cost : ℤ
  partner : String
deriving DecidableEq, Repr

/-- Catalog entry 1 of the hard-coded `REWARDS` array (cost 50). -/
def reward1 : Reward :=
  ⟨1, "15% off at Corner House Ice Cream",
    "Enjoy delicious ice cream with eco-friendly discount", 50, "Corner House"⟩

/-- Catalog entry 2 of `REWARDS` (cost 30). -/
def reward2 : Reward :=
  ⟨2, "Free Coffee at Third Wave Coffee",
    "Complimentary coffee for sustainable commuters", 30, "Third Wave Coffee"⟩

/-- Catalog entry 3 of `REWARDS` (cost 75). -/
def reward3 : Reward :=
  ⟨3, "Rs.100 off Movie Tickets",
    "Discount on movie tickets at PVR Cinemas", 75, "PVR Cinemas"⟩

/-- Catalog entry 4 of `REWARDS` (cost 40). -/
def reward4 : Reward :=
  ⟨4, "20% off Organic Groceries",
    "Sustainable shopping at Natures Basket", 40, "Natures Basket"⟩

/-- The static reward catalog `REWARDS` (4 entries). -/
def REWARDS : List Reward := [reward1, reward2, reward3, reward4]

/-- The client-side state that `redeemReward` reads and writes: the cached
`balance` and the `redeeming` in-flight flag. -/
structure RedeemState where
  balance : ℤ
  redeeming : Bool
deriving DecidableEq, Repr

/-- Outcome of one `redeemReward` call: the early `return` under the
`redeeming` guard, the success toast (with a coupon code), or the
insufficient-balance toast. -/
inductive RedeemResult where
  | inProgress : RedeemResult
  | success : RedeemResult
  | insufficientBalance : RedeemResult
deriving DecidableEq, Repr

/-- `redeemReward` from `home.tsx` (second revision): the `redeeming` guard
returns early; otherwise the `flushSync`-wrapped functional update performs
the check-then-deduct as one atomic step on the balance cell
(`prev >= reward.cost ? prev - reward.cost : prev`), the toast is chosen by
comparing the new balance to the old one, and `setRedeeming(false)` restores
the flag before the call returns.  The returned state is the net effect of
one complete synchronous call. -/
def redeemReward (st : RedeemState) (reward : Reward) :
    RedeemState × RedeemResult :=
  if st.redeeming then (st, .inProgress)
  else if reward.cost ≤ st.balance then
    ({ st with balance := st.balance - reward.cost }, .success)
  else (st, .insufficientBalance)

/-- JavaScript's `String.prototype.toLowerCase()` as used on wallet
addresses (ASCII hex strings): each character is lower-cased.  Defined
structurally over the string's characters so that concrete instances
evaluate inside the kernel. -/
def jsToLowerCase (s : String) : String := ⟨s.data.map Char.toLower⟩

/-- A user record (`users` table / `MemStorage` map entry): `id` plus the
`walletAddress` string as stored.  `createdAt` plays no role in the claims
about account resolution. -/
structure User where
  id : ℕ
  walletAddress : String
deriving DecidableEq, Repr

/-- A persisted trip row (`trips` table): `userId` foreign key, mode,
distance, tokens earned, and a creation timestamp used for ordering. -/
structure TripRow where
  id : ℕ
  userId : ℕ
  mode : String
  distance : ℚ
  tokensEarned : ℤ
  createdAt : ℕ
deriving DecidableEq, Repr

/-- The state of `MemStorage`: its `users` and `trips` maps, modelled as
lists in insertion order (JavaScript `Map` iterates in insertion order),
plus a counter standing in for `randomUUID()` freshness. -/
structure MemStorage where
  users : List User
  trips : List TripRow
  nextId : ℕ
deriving DecidableEq, Repr

/-- `MemStorage.getUserByWalletAddress`: find the first user whose stored
address equals the query address after lower-casing BOTH sides
(`user.walletAddress.toLowerCase() === walletAddress.toLowerCase()`). -/
def MemStorage.getUserByWalletAddress (st : MemStorage) (walletAddress : String) :
    Option User :=
  st.users.find? fun user => jsToLowerCase user.walletAddress = jsToLowerCase walletAddress

/-- `MemStorage.createUser`: a fresh id, and the user stored with the
wallet address EXACTLY as supplied (the insert spreads `insertUser`
without lower-casing). -/
def MemStorage.createUser (st : MemStorage) (walletAddress : String) :
    MemStorage × User :=
  let user : User := ⟨st.nextId, walletAddress⟩
  ({ st with users := st.users ++ [user], nextId := st.nextId + 1 }, user)

/-- The state of `DatabaseStorage`: the `users` and `trips` tables.  The
`walletAddress` column carries a UNIQUE constraint, which
`onConflictDoNothing` relies on. -/
structure DatabaseStorage where
  users : List User
  trips : List TripRow
  nextId : ℕ
deriving DecidableEq, Repr

/-- `DatabaseStorage.getUserByWalletAddress`: select the user whose stored
address equals the lower-cased query
(`eq(users.walletAddress, walletAddress.toLowerCase())`); the stored side
is compared as-is. -/
def DatabaseStorage.getUserByWalletAddress (st : DatabaseStorage)
    (walletAddress : String) : Option User :=
  st.users.find? fun user => user.walletAddress = jsToLowerCase walletAddress

/-- `DatabaseStorage.createUser`: insert with the wallet address
lower-cased, `onConflictDoNothing` on the unique `walletAddress` column;
when the insert is skipped by the conflict, fetch and return the existing
user. -/
def DatabaseStorage.createUser (st : DatabaseStorage) (walletAddress : String) :
    DatabaseStorage × User :=
  match st.users.find? fun user => user.walletAddress = jsToLowerCase walletAddress with
  | some existing => (st, existing)
  | none =>
    let user : User := ⟨st.nextId, jsToLowerCase walletAddress⟩
    ({ st with users := st.users ++ [user], nextId := st.nextId + 1 }, user)

/-- The find-or-create pattern of `routes.ts`
(`/api/auth/wallet` and `POST /api/trips`):
`getUserByWalletAddress` then `createUser` when absent, on `MemStorage`. -/
def MemStorage.findOrCreateUser (st : MemStorage) (walletAddress : String) :
    MemStorage × User :=
  match st.getUserByWalletAddress walletAddress with
  | some user => (st, user)
  | none => st.createUser walletAddress

/-- The find-or-create pattern of `routes.ts` on `DatabaseStorage`. -/
def DatabaseStorage.findOrCreateUser (st : DatabaseStorage) (walletAddress : String) :
    DatabaseStorage × User :=
  match st.getUserByWalletAddress walletAddress with
  | some user => (st, user)
  | none => st.createUser walletAddress

/-- `DatabaseStorage.getTripsByUserId`: the rows with the given `userId`,
ordered by `createdAt` descending (`orderBy(desc(trips.createdAt))`). -/
def DatabaseStorage.getTripsByUserId (st : DatabaseStorage) (userId : ℕ) :
    List TripRow :=
  ((st.trips.filter fun trip => trip.userId = userId).mergeSort
    fun a b => b.createdAt ≤ a.createdAt)

/-- Response of `GET /api/trips/:walletAddress`: the 404 "User not found"
body, or the 200 JSON list of trips. -/
inductive TripsResponse where
  | notFound : TripsResponse
  | ok : List TripRow → TripsResponse
deriving DecidableEq, Repr

/-- The `GET /api/trips/:walletAddress` handler from `routes.ts`:
look the user up by wallet address; `404 "User not found"` when absent,
otherwise the user's trips. -/
def getTripsRoute (st : DatabaseStorage) (walletAddress : String) :
    TripsResponse :=
  match st.getUserByWalletAddress walletAddress with
  | none => .notFound
  | some user => .ok (st.getTripsByUserId user.id)

/-! ## Shared helper lemmas -/

/-- `mintGate` returns `some n` only when the computed tokens are exactly
`.val n` with `n` positive and the provider is present. -/
theorem mintGate_eq_some {p : Bool} {tokens : FloorResult} {n : ℤ}
    (h : mintGate p tokens = some n) :
    tokens = .val n ∧ 0 < n ∧ p = true := by
  unfold mintGate at h
  rcases tokens with _ | m
  · simp at h
  · by_cases hp : p
    · by_cases hm : (0 : ℤ) < m
      · simp [hp, hm] at h
        subst h
        exact ⟨rfl, hm, hp⟩
      · simp [hp, hm] at h
    · simp [hp] at h

/-- The validation prefix of `submitTrip` leaves the trip list and the
provider untouched. -/
theorem submitBegin_preserves (st : SubmitState) (distance? : Option ℚ) :
    (submitBegin st distance?).1.trips = st.trips ∧
    (submitBegin st distance?).1.provider = st.provider := by
  unfold submitBegin
  by_cases hm : st.minting
  · simp [hm]
  · rcases distance? with _ | d
    · simp [hm]
    · by_cases hd : d ≤ 0
      · simp [hm, hd]
      · rcases ha : st.account with _ | acct <;> simp [hm, hd, ha]

/-- A `started` outcome of `submitBegin` pins down the validated inputs
and the state transition: the guard saw `minting = false`, the distance is
the positive parsed value, the account is connected, and the only state
change is `setMinting(true)`. -/
theorem submitBegin_started {st st' : SubmitState} {distance? : Option ℚ}
    {acct : String} {d : ℚ}
    (h : submitBegin st distance? = (st', .started acct d)) :
    st.minting = false ∧ distance? = some d ∧ 0 < d ∧
    st.account = some acct ∧ st' = { st with minting := true } := by
  obtain ⟨acc, prov, bal, mnt, trips⟩ := st
  unfold submitBegin at h
  rcases mnt with _ | _
  · rcases distance? with _ | d'
    · simp at h
    · by_cases hd : d' ≤ 0
      · simp [hd] at h
      · rcases acc with _ | acct'
        · simp [hd] at h
        · simp [hd] at h
          obtain ⟨h1, h2, h3⟩ := h
          subst h2
          subst h3
          exact ⟨rfl, rfl, lt_of_not_le hd, rfl, h1.symm⟩
  · simp at h

/-- On a valid call (not in flight, positive distance, connected account)
`submitTrip` runs its try block from the state with `minting` set. -/
theorem submitTrip_valid (st : SubmitState) (mode acct : String) (d : ℚ)
    (mintOutcome : Option String) (ledgerRead : Option ℤ)
    (hm : st.minting = false) (hd : 0 < d) (ha : st.account = some acct) :
    submitTrip st mode (some d) mintOutcome ledgerRead
      = submitFinish { st with minting := true } acct mode d mintOutcome ledgerRead := by
  have hd' : ¬ d ≤ 0 := not_le.mpr hd
  unfold submitTrip submitBegin
  simp [hm, hd', ha]

/-! ## Claim theorems -/

/-- C3: for every mode in the rate table and every distance `d > 0`, the
reward computation returns `floor(rate(m) * d)` with rates
Walking `1`, Cycling `1/2`, Public Transport `1/5`; the result is a
non-negative integer; and the spec's four scenarios hold
(Walking/10 → 10, Cycling/10 → 5, Public Transport/10 → 2,
Cycling/3 → ⌊1.5⌋ = 1). -/
theorem calculateTokens_floor_rate_nonneg (d : ℚ) (hd : 0 < d) :
    (calculateTokens "Walking" d = .val ⌊(1 : ℚ) * d⌋ ∧
     calculateTokens "Cycling" d = .val ⌊(1/2 : ℚ) * d⌋ ∧
     calculateTokens "Public Transport" d = .val ⌊(1/5 : ℚ) * d⌋) ∧
    (0 ≤ ⌊(1 : ℚ) * d⌋ ∧ 0 ≤ ⌊(1/2 : ℚ) * d⌋ ∧ 0 ≤ ⌊(1/5 : ℚ) * d⌋) ∧
    (calculateTokens "Walking" 10 = .val 10 ∧
     calculateTokens "Cycling" 10 = .val 5 ∧
     calculateTokens "Public Transport" 10 = .val 2 ∧
     calculateTokens "Cycling" 3 = .val 1) := by
  refine ⟨⟨?_, ?_, ?_⟩, ⟨?_, ?_, ?_⟩, ?_, ?_, ?_, ?_⟩
  · simp +decide [calculateTokens, rates]
  · simp +decide [calculateTokens, rates]
  · simp +decide [calculateTokens, rates]
  · exact Int.floor_nonneg.mpr (by linarith)
  · exact Int.floor_nonneg.mpr (by linarith)
  · exact Int.floor_nonneg.mpr (by linarith)
  · norm_num +decide [calculateTokens, rates]
  · norm_num +decide [calculateTokens, rates]
  · norm_num +decide [calculateTokens, rates]
  · norm_num +decide [calculateTokens, rates]

/-- Witness for C3: the theorem instantiated at distance 3. -/
theorem calculateTokens_floor_rate_nonneg_witness :
    (calculateTokens "Walking" 3 = .val ⌊(1 : ℚ) * 3⌋ ∧
     calculateTokens "Cycling" 3 = .val ⌊(1/2 : ℚ) * 3⌋ ∧
     calculateTokens "Public Transport" 3 = .val ⌊(1/5 : ℚ) * 3⌋) ∧
    (0 ≤ ⌊(1 : ℚ) * 3⌋ ∧ 0 ≤ ⌊(1/2 : ℚ) * 3⌋ ∧ 0 ≤ ⌊(1/5 : ℚ) * 3⌋) ∧
    (calculateTokens "Walking" 10 = .val 10 ∧
     calculateTokens "Cycling" 10 = .val 5 ∧
     calculateTokens "Public Transport" 10 = .val 2 ∧
     calculateTokens "Cycling" 3 = .val 1) :=
  calculateTokens_floor_rate_nonneg 3 (by norm_num)

/-- C8 (counterexample): on the unknown mode `"Driving"` the reward
computation does not fail with an `UnknownMode` error — it returns normally,
with value `NaN` (the mode is indeed absent from the rate table). -/
theorem calculateTokens_unknown_mode_counterexample :
    calculateTokens "Driving" 5 = .nan ∧ rates "Driving" = none := by
  constructor <;> rfl

/-- C8 (amended): for every mode not in the rate table and every distance,
the reward computation returns `NaN` (it raises no `UnknownMode` failure and
produces no integer), and the submission flow's mint gate then treats the
amount as not positive, so no mint is attempted. -/
theorem calculateTokens_unknown_mode (mode : String) (d : ℚ) (p : Bool)
    (h : rates mode = none) :
    calculateTokens mode d = .nan ∧
    mintGate p (calculateTokens mode d) = none := by
  unfold calculateTokens
  rw [h]
  exact ⟨rfl, rfl⟩

/-- Witness for C8: the amended theorem at mode `"Driving"`, distance 5. -/
theorem calculateTokens_unknown_mode_witness :
    calculateTokens "Driving" 5 = .nan ∧
    mintGate true (calculateTokens "Driving" 5) = none :=
  calculateTokens_unknown_mode "Driving" 5 true rfl

/-- C1: on a trip submission with a connected account, a provider,
positive distance and a positive computed token amount, a Trip record is
persisted if and only if the Ledger mint reported success: on mint success
the trip (with the precomputed token amount) is appended, and on mint
failure (rejection, cancellation, network fault — the oracle returns
`none`) the whole flow fails with the mint-failure outcome and the state —
in particular the trip list and the cached balance — is exactly unchanged. -/
theorem submitTrip_trip_iff_mint (st : SubmitState) (mode acct : String)
    (d : ℚ) (n : ℤ) (mintOutcome : Option String) (ledgerRead : Option ℤ)
    (hm : st.minting = false) (hd : 0 < d) (ha : st.account = some acct)
    (hp : st.provider = true) (ht : calculateTokens mode d = .val n)
    (hn : 0 < n) :
    (∀ txHash, mintOutcome = some txHash →
        (submitTrip st mode (some d) mintOutcome ledgerRead).1.trips
            = st.trips ++ [⟨acct, mode, d, n⟩] ∧
        (submitTrip st mode (some d) mintOutcome ledgerRead).2
            = .success txHash) ∧
    (mintOutcome = none →
        submitTrip st mode (some d) mintOutcome ledgerRead
            = (st, .mintFailed)) := by
  obtain ⟨acc, prov, bal, mnt, trips⟩ := st
  simp only at hm hp ha
  subst hm
  subst hp
  subst ha
  rw [submitTrip_valid _ mode acct d mintOutcome ledgerRead rfl hd rfl]
  unfold submitFinish mintGate
  rw [ht]
  rcases mintOutcome with _ | txHash
  · simp [hn]
  · simp [hn]

/-- Witness for C1: a concrete Walking/10 km submission whose mint
succeeds appends exactly the expected trip and reports the mint's
transaction hash. -/
theorem submitTrip_trip_iff_mint_witness :
    (∀ txHash, (some "0xh" : Option String) = some txHash →
        (submitTrip ⟨some "0xab", true, 100, false, []⟩ "Walking" (some 10)
            (some "0xh") (some 42)).1.trips
            = [] ++ [⟨"0xab", "Walking", 10, 10⟩] ∧
        (submitTrip ⟨some "0xab", true, 100, false, []⟩ "Walking" (some 10)
            (some "0xh") (some 42)).2 = .success txHash) ∧
    ((some "0xh" : Option String) = none →
        submitTrip ⟨some "0xab", true, 100, false, []⟩ "Walking" (some 10)
            (some "0xh") (some 42)
            = (⟨some "0xab", true, 100, false, []⟩, .mintFailed)) :=
  submitTrip_trip_iff_mint ⟨some "0xab", true, 100, false, []⟩ "Walking" "0xab"
    10 10 (some "0xh") (some 42) rfl (by norm_num) rfl rfl
    (by norm_num +decide [calculateTokens, rates]) (by norm_num)

/-- C2: every trip record present after a `submitTrip` call either was
already persisted before the call or carries exactly
`tokensEarned = calculateTokens(mode, distance)` — the reward the policy
assigns to its own mode and distance, computed before the corresponding
mint (and positive, since zero-token trips are never persisted by this
flow). -/
theorem submitTrip_tokens_match_policy (st : SubmitState) (mode : String)
    (distance? : Option ℚ) (mintOutcome : Option String)
    (ledgerRead : Option ℤ) (t : ClientTrip)
    (hmem : t ∈ (submitTrip st mode distance? mintOutcome ledgerRead).1.trips) :
    t ∈ st.trips ∨
    (calculateTokens t.mode t.distance = .val t.tokensEarned ∧
     0 < t.tokensEarned) := by
  unfold submitTrip at hmem
  rcases hb : submitBegin st distance? with ⟨st', r⟩
  have hpres := submitBegin_preserves st distance?
  rw [hb] at hmem hpres
  rcases r with _ | _ | _ | ⟨acct, d⟩
  · exact Or.inl (by rw [← hpres.1]; exact hmem)
  · exact Or.inl (by rw [← hpres.1]; exact hmem)
  · exact Or.inl (by rw [← hpres.1]; exact hmem)
  · have hmem' : t ∈ (submitFinish st' acct mode d mintOutcome ledgerRead).1.trips :=
      hmem
    unfold submitFinish at hmem'
    rcases hg : mintGate st'.provider (calculateTokens mode d) with _ | n
    · rw [hg] at hmem'
      exact Or.inl (by rw [← hpres.1]; exact hmem')
    · rw [hg] at hmem'
      rcases mintOutcome with _ | txHash
      · exact Or.inl (by rw [← hpres.1]; exact hmem')
      · have hmem2 : t ∈ st'.trips ++ [(⟨acct, mode, d, n⟩ : ClientTrip)] := hmem'
        rcases List.mem_append.mp hmem2 with hold | hnew
        · exact Or.inl (by rw [← hpres.1]; exact hold)
        · have heq : t = ⟨acct, mode, d, n⟩ := List.mem_singleton.mp hnew
          subst heq
          obtain ⟨htok, hpos, _⟩ := mintGate_eq_some hg
          exact Or.inr ⟨htok, hpos⟩

/-- Witness for C2: the trip persisted by a concrete successful Walking/10
submission carries the policy's token amount. -/
theorem submitTrip_tokens_match_policy_witness :
    (⟨"0xab", "Walking", 10, 10⟩ : ClientTrip) ∈ ([] : List ClientTrip) ∨
    (calculateTokens "Walking" 10 = .val 10 ∧ 0 < (10 : ℤ)) :=
  submitTrip_tokens_match_policy ⟨some "0xab", true, 100, false, []⟩
    "Walking" (some 10) (some "0xh") (some 42) ⟨"0xab", "Walking", 10, 10⟩
    (by norm_num +decide [submitTrip, submitBegin, submitFinish, mintGate,
      calculateTokens, rates])

/-- C4: after a successful mint, the cached balance is set to the fresh
authoritative Ledger read (when the read itself fails, the previous cached
value is kept); for every token amount `n`, the new balance is
`ledgerRead.getD st.balance` — never the local increment
`st.balance + n`. -/
theorem submitTrip_balance_fresh_read (st : SubmitState)
    (mode acct txHash : String) (d : ℚ) (n : ℤ) (ledgerRead : Option ℤ)
    (hm : st.minting = false) (hd : 0 < d) (ha : st.account = some acct)
    (hp : st.provider = true) (ht : calculateTokens mode d = .val n)
    (hn : 0 < n) :
    (submitTrip st mode (some d) (some txHash) ledgerRead).1.balance
        = ledgerRead.getD st.balance ∧
    (∀ b, ledgerRead = some b →
        (submitTrip st mode (some d) (some txHash) ledgerRead).1.balance
            = b) := by
  rw [submitTrip_valid st mode acct d (some txHash) ledgerRead hm hd ha]
  unfold submitFinish mintGate
  rw [ht]
  simp [hp, hn]
  rintro b rfl
  rfl

/-- Witness for C4: a concrete successful submission with cached balance
100, token amount 10 and an authoritative ledger read of 42 ends with
balance 42 — not the local guess 110. -/
theorem submitTrip_balance_fresh_read_witness :
    (submitTrip ⟨some "0xab", true, 100, false, []⟩ "Walking" (some 10)
        (some "0xh") (some 42)).1.balance = (some (42:ℤ)).getD 100 ∧
    (∀ b, (some (42:ℤ) : Option ℤ) = some b →
        (submitTrip ⟨some "0xab", true, 100, false, []⟩ "Walking" (some 10)
            (some "0xh") (some 42)).1.balance = b) :=
  submitTrip_balance_fresh_read ⟨some "0xab", true, 100, false, []⟩
    "Walking" "0xab" "0xh" 10 10 (some 42) rfl (by norm_num) rfl rfl
    (by norm_num +decide [calculateTokens, rates]) (by norm_num)

/-- C7 (counterexample): a Public Transport trip of 1 km with a connected
account and provider computes 0 tokens, and the flow then FAILS with the
generic submission error and persists nothing — it does not succeed and
log the zero-value trip as the claim states. -/
theorem submitTrip_zero_tokens_counterexample :
    submitTrip ⟨some "0xab", true, 0, false, []⟩ "Public Transport" (some 1)
        (some "0xh") (some 0)
      = (⟨some "0xab", true, 0, false, []⟩, .submitError) ∧
    calculateTokens "Public Transport" 1 = .val 0 := by
  constructor
  · norm_num +decide [submitTrip, submitBegin, submitFinish, mintGate,
      calculateTokens, rates]
  · norm_num +decide [calculateTokens, rates]

/-- C7 (amended): on a submission with a connected account and positive
distance whose computed token amount is exactly 0, no mint is performed
(the outcome is the same for every mint oracle), no trip is written, and
the flow FAILS with the generic submission error thrown by the
`'No provider available or no tokens to mint'` branch — the state is
returned unchanged. -/
theorem submitTrip_zero_tokens_fails (st : SubmitState) (mode acct : String)
    (d : ℚ) (mintOutcome : Option String) (ledgerRead : Option ℤ)
    (hm : st.minting = false) (hd : 0 < d) (ha : st.account = some acct)
    (ht : calculateTokens mode d = .val 0) :
    submitTrip st mode (some d) mintOutcome ledgerRead
        = (st, .submitError) := by
  obtain ⟨acc, prov, bal, mnt, trips⟩ := st
  simp only at hm ha
  subst hm
  subst ha
  rw [submitTrip_valid _ mode acct d mintOutcome ledgerRead rfl hd rfl]
  unfold submitFinish mintGate
  rw [ht]
  simp

/-- Witness for C7: a concrete Public Transport / 1 km submission (0
tokens) fails with the generic submission error and changes nothing. -/
theorem submitTrip_zero_tokens_fails_witness :
    submitTrip ⟨some "0xab", true, 0, false, []⟩ "Public Transport" (some 1)
        none (some 7)
      = (⟨some "0xab", true, 0, false, []⟩, .submitError) :=
  submitTrip_zero_tokens_fails ⟨some "0xab", true, 0, false, []⟩
    "Public Transport" "0xab" 1 none (some 7) rfl (by norm_num) rfl
    (by norm_num +decide [calculateTokens, rates])

/-- C5: `redeemReward` debits the cached balance by exactly the entry's
cost when, at the instant of the (atomic, single-step) check-and-debit,
the balance is at least the cost; otherwise it fails with the
insufficient-balance outcome and leaves the balance unchanged; a call
while another redemption is in flight fails fast with no state change;
a non-negative balance stays non-negative; and the spec's race scenario —
two calls against a balance of 50 for the catalog entry costing 50 —
yields exactly one success and a final balance of 0. -/
theorem redeemReward_atomic_debit (st : RedeemState) (reward : Reward) :
    (st.redeeming = true → redeemReward st reward = (st, .inProgress)) ∧
    (st.redeeming = false → reward.cost ≤ st.balance →
        redeemReward st reward
            = (⟨st.balance - reward.cost, false⟩, .success)) ∧
    (st.redeeming = false → st.balance < reward.cost →
        redeemReward st reward = (st, .insufficientBalance)) ∧
    (0 ≤ st.balance → 0 ≤ (redeemReward st reward).1.balance) ∧
    (redeemReward ⟨50, false⟩ reward1 = (⟨0, false⟩, .success) ∧
     redeemReward (redeemReward ⟨50, false⟩ reward1).1 reward1
        = (⟨0, false⟩, .insufficientBalance)) := by
  refine ⟨?_, ?_, ?_, ?_, ?_, ?_⟩
  · intro h
    unfold redeemReward
    rw [if_pos h]
  · intro h hc
    unfold redeemReward
    rw [if_neg (by simp [h]), if_pos hc]
    have hst : ({ st with balance := st.balance - reward.cost } : RedeemState)
        = ⟨st.balance - reward.cost, false⟩ := by
      obtain ⟨bal, red⟩ := st
      dsimp only at h ⊢
      rw [h]
    rw [hst]
  · intro h hc
    unfold redeemReward
    rw [if_neg (by simp [h]), if_neg (not_le.mpr hc)]
  · intro h0
    unfold redeemReward
    by_cases hr : st.redeeming = true
    · rw [if_pos hr]
      exact h0
    · rw [if_neg hr]
      by_cases hc : reward.cost ≤ st.balance
      · rw [if_pos hc]
        dsimp only
        omega
      · rw [if_neg hc]
        exact h0
  · decide
  · decide

/-- C6: while a submission for the session is in flight (`minting = true`)
every new `submitTrip` call fails fast with the already-in-progress
outcome and changes nothing (no queuing); a call can only enter the
in-flight phase from a non-in-flight state — so there are never two
concurrently started submissions — and doing so sets the flag; completing
the in-flight body (mint success or any failure) always clears the flag;
and from a cleared flag a valid submission is allowed to start again. -/
theorem submitTrip_in_flight_guard (st st' : SubmitState) (mode acct : String)
    (distance? : Option ℚ) (d : ℚ) (mintOutcome : Option String)
    (ledgerRead : Option ℤ) :
    (st.minting = true →
        submitTrip st mode distance? mintOutcome ledgerRead
            = (st, .alreadyInProgress)) ∧
    (submitBegin st distance? = (st', .started acct d) →
        st.minting = false ∧ st'.minting = true) ∧
    (submitFinish st acct mode d mintOutcome ledgerRead).1.minting = false ∧
    (st.minting = false → st.account = some acct → 0 < d →
        submitBegin st (some d)
            = ({ st with minting := true }, .started acct d)) := by
  refine ⟨?_, ?_, ?_, ?_⟩
  · intro h
    unfold submitTrip submitBegin
    rw [if_pos h]
  · intro h
    obtain ⟨h1, _, _, _, h5⟩ := submitBegin_started h
    exact ⟨h1, by rw [h5]⟩
  · unfold submitFinish
    rcases hg : mintGate st.provider (calculateTokens mode d) with _ | n
    · rfl
    · rcases mintOutcome with _ | tx <;> rfl
  · intro hm ha hd
    unfold submitBegin
    rw [if_neg (by simp [hm])]
    dsimp only
    rw [if_neg (not_le.mpr hd), ha]

/-- Looking a wallet address up in `MemStorage` is invariant under case
variants of the query (both sides of the comparison are lower-cased). -/
theorem memGetUser_congr (st : MemStorage) {a b : String}
    (hab : jsToLowerCase b = jsToLowerCase a) :
    st.getUserByWalletAddress b = st.getUserByWalletAddress a := by
  unfold MemStorage.getUserByWalletAddress
  simp only [hab]

/-- Looking a wallet address up in `DatabaseStorage` is invariant under
case variants of the query (the query is lower-cased before comparison). -/
theorem dbGetUser_congr (st : DatabaseStorage) {a b : String}
    (hab : jsToLowerCase b = jsToLowerCase a) :
    st.getUserByWalletAddress b = st.getUserByWalletAddress a := by
  unfold DatabaseStorage.getUserByWalletAddress
  simp only [hab]

/-- C9 (counterexample): `MemStorage.createUser` (reached by find-or-create
on a fresh address) stores the wallet address exactly as supplied —
`"0xAB"`, which is not lower-cased — refuting "stores the address
lower-cased" for the in-memory account resolution. -/
theorem memStorage_stores_as_given_counterexample :
    (((⟨[], [], 0⟩ : MemStorage).findOrCreateUser "0xAB").2).walletAddress
        = "0xAB" ∧
    "0xAB" ≠ jsToLowerCase "0xAB" := by
  constructor
  · rfl
  · decide

/-- Find-or-create on `MemStorage` returns the found account unchanged. -/
theorem memFindOrCreate_of_found {st : MemStorage} {b : String}
    {u : User} (h : st.getUserByWalletAddress b = some u) :
    st.findOrCreateUser b = (st, u) := by
  unfold MemStorage.findOrCreateUser
  rw [h]

/-- Find-or-create on `DatabaseStorage` returns the found account
unchanged. -/
theorem dbFindOrCreate_of_found {st : DatabaseStorage}
    {b : String} {u : User} (h : st.getUserByWalletAddress b = some u) :
    st.findOrCreateUser b = (st, u) := by
  unfold DatabaseStorage.findOrCreateUser
  rw [h]

/-- After find-or-create with `a` on `MemStorage`, a lookup with any case
variant `b` of `a` returns the very account that was found or created. -/
theorem memFindOrCreate_lookup (mem : MemStorage) (a b : String)
    (hab : jsToLowerCase b = jsToLowerCase a) :
    (mem.findOrCreateUser a).1.getUserByWalletAddress b
        = some (mem.findOrCreateUser a).2 := by
  unfold MemStorage.findOrCreateUser
  rcases h : mem.getUserByWalletAddress a with _ | u
  · show (mem.createUser a).1.getUserByWalletAddress b = some (mem.createUser a).2
    unfold MemStorage.getUserByWalletAddress at h ⊢
    unfold MemStorage.createUser
    simp only [hab, List.find?_append, h, Option.none_or]
    simp [List.find?]
  · show mem.getUserByWalletAddress b = some u
    rw [memGetUser_congr mem hab, h]

/-- After find-or-create with `a` on `DatabaseStorage`, a lookup with any
case variant `b` of `a` returns the very account that was found or
created. -/
theorem dbFindOrCreate_lookup (db : DatabaseStorage)
    (a b : String) (hab : jsToLowerCase b = jsToLowerCase a) :
    (db.findOrCreateUser a).1.getUserByWalletAddress b
        = some (db.findOrCreateUser a).2 := by
  unfold DatabaseStorage.findOrCreateUser
  rcases h : db.getUserByWalletAddress a with _ | u
  · show (db.createUser a).1.getUserByWalletAddress b = some (db.createUser a).2
    unfold DatabaseStorage.getUserByWalletAddress at h ⊢
    unfold DatabaseStorage.createUser
    rw [h]
    simp only [hab, List.find?_append, h, Option.none_or]
    simp [List.find?]
  · show db.getUserByWalletAddress b = some u
    rw [dbGetUser_congr db hab, h]

/-- C9 (amended): `DatabaseStorage` stores addresses lower-cased, while
`MemStorage` stores the address as supplied but compares
case-insensitively; in BOTH storages, after find-or-create with an address
`a`, a lookup with any case variant `b` of `a` returns that same account,
and find-or-create with `b` returns the same account and creates no second
account (the state is unchanged). -/
theorem storage_case_insensitive_resolution (mem : MemStorage)
    (db : DatabaseStorage) (a b : String)
    (hab : jsToLowerCase b = jsToLowerCase a) :
    ((mem.findOrCreateUser a).1.getUserByWalletAddress b
        = some (mem.findOrCreateUser a).2 ∧
     (mem.findOrCreateUser a).1.findOrCreateUser b = mem.findOrCreateUser a) ∧
    ((db.findOrCreateUser a).1.getUserByWalletAddress b
        = some (db.findOrCreateUser a).2 ∧
     (db.findOrCreateUser a).1.findOrCreateUser b = db.findOrCreateUser a) ∧
    (∀ u ∈ (db.findOrCreateUser a).1.users,
        u ∈ db.users ∨ u.walletAddress = jsToLowerCase a) := by
  refine ⟨⟨memFindOrCreate_lookup mem a b hab, ?_⟩,
    ⟨dbFindOrCreate_lookup db a b hab, ?_⟩, ?_⟩
  · rw [memFindOrCreate_of_found (memFindOrCreate_lookup mem a b hab)]
  · rw [dbFindOrCreate_of_found (dbFindOrCreate_lookup db a b hab)]
  · intro u hu
    rcases h : db.getUserByWalletAddress a with _ | w
    · unfold DatabaseStorage.findOrCreateUser at hu
      rw [h] at hu
      unfold DatabaseStorage.createUser at hu
      unfold DatabaseStorage.getUserByWalletAddress at h
      rw [h] at hu
      simp only [List.mem_append, List.mem_singleton] at hu
      rcases hu with hold | hnew
      · exact Or.inl hold
      · exact Or.inr (by rw [hnew])
    · unfold DatabaseStorage.findOrCreateUser at hu
      rw [h] at hu
      exact Or.inl hu

/-- Witness for C9: find-or-create on the empty stores with `"0xAB"`, then
lookup and find-or-create with the case variant `"0xab"`, return the very
account that was created, in both storages. -/
theorem storage_case_insensitive_resolution_witness :
    (((⟨[], [], 0⟩ : MemStorage).findOrCreateUser "0xAB").1.getUserByWalletAddress "0xab"
        = some ((⟨[], [], 0⟩ : MemStorage).findOrCreateUser "0xAB").2 ∧
     ((⟨[], [], 0⟩ : MemStorage).findOrCreateUser "0xAB").1.findOrCreateUser "0xab"
        = (⟨[], [], 0⟩ : MemStorage).findOrCreateUser "0xAB") ∧
    (((⟨[], [], 0⟩ : DatabaseStorage).findOrCreateUser "0xAB").1.getUserByWalletAddress "0xab"
        = some ((⟨[], [], 0⟩ : DatabaseStorage).findOrCreateUser "0xAB").2 ∧
     ((⟨[], [], 0⟩ : DatabaseStorage).findOrCreateUser "0xAB").1.findOrCreateUser "0xab"
        = (⟨[], [], 0⟩ : DatabaseStorage).findOrCreateUser "0xAB") ∧
    (∀ u ∈ (((⟨[], [], 0⟩ : DatabaseStorage).findOrCreateUser "0xAB").1.users),
        u ∈ ([] : List User) ∨ u.walletAddress = jsToLowerCase "0xAB") :=
  storage_case_insensitive_resolution ⟨[], [], 0⟩ ⟨[], [], 0⟩ "0xAB" "0xab"
    (by decide)

/-- C10: the `GET /api/trips/:walletAddress` handler answers
404 "User not found" — never an `ok` list, not even an empty one — exactly
when no account record matches the address, and answers the account's
(possibly empty) trip list when one does; concretely, an unknown address
on an empty store gets the 404 and a known account with no trips gets
`ok []`. -/
theorem getTripsRoute_requires_user (st : DatabaseStorage)
    (walletAddress : String) (l : List TripRow) (u : User) :
    (st.getUserByWalletAddress walletAddress = none →
        getTripsRoute st walletAddress = .notFound ∧
        getTripsRoute st walletAddress ≠ .ok l) ∧
    (st.getUserByWalletAddress walletAddress = some u →
        getTripsRoute st walletAddress = .ok (st.getTripsByUserId u.id)) ∧
    getTripsRoute ⟨[], [], 0⟩ "0xab" = .notFound ∧
    getTripsRoute ⟨[⟨0, "0xab"⟩], [], 1⟩ "0xAB" = .ok [] := by
  refine ⟨?_, ?_, ?_, ?_⟩
  · intro h
    unfold getTripsRoute
    rw [h]
    exact ⟨rfl, by simp⟩
  · intro h
    unfold getTripsRoute
    rw [h]
  · rfl
  · unfold getTripsRoute DatabaseStorage.getUserByWalletAddress
    simp [List.find?, DatabaseStorage.getTripsByUserId,
      show jsToLowerCase "0xAB" = "0xab" from rfl]

end CarbonShift
